import Mathlib

/-!
Shallow embedding of the cart-pole control playground core
(dynamics, integrator, constraint resolver, controller, metrics)
over the real numbers, together with theorems settling the spec claims.
Python floats are modelled as real numbers; Python's `%` on floats with a
positive divisor is modelled as `a - b * ⌊a / b⌋`.
-/

noncomputable section

open Real

/-- The simulation state `(x, x_dot, theta, theta_dot)` — `np.ndarray` of
length 4 in the source. -/
structure SVec where
  x : ℝ
  x_dot : ℝ
  theta : ℝ
  theta_dot : ℝ

instance : Add SVec := ⟨fun a b => ⟨a.x + b.x, a.x_dot + b.x_dot, a.theta + b.theta, a.theta_dot + b.theta_dot⟩⟩

instance : SMul ℝ SVec := ⟨fun c a => ⟨c * a.x, c * a.x_dot, c * a.theta, c * a.theta_dot⟩⟩

theorem SVec.add_def (a b : SVec) :
    a + b = ⟨a.x + b.x, a.x_dot + b.x_dot, a.theta + b.theta, a.theta_dot + b.theta_dot⟩ := rfl

theorem SVec.smul_def (c : ℝ) (a : SVec) :
    c • a = ⟨c * a.x, c * a.x_dot, c * a.theta, c * a.theta_dot⟩ := rfl

/-! Physical and numerical parameters (`params.py`, dataclass `Params`). -/

namespace P

def M : ℝ := 1.0

def m : ℝ := 0.2

def l : ℝ := 0.5

def g : ℝ := 9.81

def cart_damping : ℝ := 0.05

def pole_damping : ℝ := 0.02

def max_force : ℝ := 50.0

def max_mouse_force : ℝ := 50.0

def dt : ℝ := 1.0 / 240.0

def substeps : ℕ := 2

def pixels_per_meter : ℝ := 170.0

def cart_width_m : ℝ := 0.55

def settle_x_thresh : ℝ := 0.05

/-- Threshold `math.radians(3.0)`. -/
def settle_theta_thresh : ℝ := 3.0 * (Real.pi / 180)

def settle_hold_time : ℝ := 1.0

end P

/-- Python float `a % b` for `b > 0`: the representative of `a` modulo `b`
lying in `[0, b)`. -/
def pymod (a b : ℝ) : ℝ := a - b * (⌊a / b⌋ : ℤ)

/-- Function `utils.wrap_angle`: `(theta + pi) % (2*pi) - pi`. -/
def wrap_angle (theta : ℝ) : ℝ := pymod (theta + Real.pi) (2 * Real.pi) - Real.pi

/-- Function `utils.clamp`. -/
def clamp (v lo hi : ℝ) : ℝ := max lo (min hi v)

/-- Function `dynamics.dynamics_free`: free-regime cart-pole derivative.  Mirrors the
source line by line — note that `x_dd` is computed from `theta_dd` *before*
the damping contribution `theta_dd_extra` is added to `theta_dd`. -/
def dynamics_free (state : SVec) (force cart_damp pole_damp : ℝ) : SVec :=
  let x_dot := state.x_dot
  let theta := state.theta
  let theta_dot := state.theta_dot
  let force_eff := force - cart_damp * x_dot
  let s := Real.sin theta
  let c := Real.cos theta
  let tau_damp := -pole_damp * theta_dot
  let theta_dd_extra := tau_damp / (P.m * P.l ^ 2 + 1e-9)
  let temp := (force_eff + P.m * P.l * theta_dot ^ 2 * s) / (P.M + P.m)
  let denom := P.l * (4.0 / 3.0 - P.m * c ^ 2 / (P.M + P.m))
  let theta_dd := (P.g * s - c * temp) / (denom + 1e-9)
  let x_dd := temp - P.m * P.l * theta_dd * c / (P.M + P.m)
  let theta_dd' := theta_dd + theta_dd_extra
  ⟨x_dot, x_dd, theta_dot, theta_dd'⟩

/-- Function `dynamics.dynamics_constrained`: cart pinned at a wall, pole a
fixed-pivot rod. -/
def dynamics_constrained (state : SVec) (pole_damp : ℝ) : SVec :=
  let theta := state.theta
  let theta_dot := state.theta_dot
  let s := Real.sin theta
  let tau_damp := -pole_damp * theta_dot
  let theta_dd_extra := tau_damp / (P.m * P.l ^ 2 + 1e-9)
  let denom_fixed := P.l * (4.0 / 3.0)
  let theta_dd := P.g * s / (denom_fixed + 1e-9) + theta_dd_extra
  ⟨0.0, 0.0, theta_dot, theta_dd⟩

/-- Function `dynamics.rk4_step`: classic explicit 4-stage Runge-Kutta over step `dt`,
with the derivative function selected by the `constrained` flag, and the
`theta` component of the result wrapped. -/
def rk4_step (state : SVec) (force dt : ℝ) (constrained : Bool) (cart_damp pole_damp : ℝ) : SVec :=
  let f : SVec → SVec :=
    if constrained then fun st => dynamics_constrained st pole_damp
    else fun st => dynamics_free st force cart_damp pole_damp
  let k1 := f state
  let k2 := f (state + (0.5 * dt) • k1)
  let k3 := f (state + (0.5 * dt) • k2)
  let k4 := f (state + dt • k3)
  let nxt := state + (dt / 6.0) • (k1 + (2 : ℝ) • k2 + (2 : ℝ) • k3 + k4)
  ⟨nxt.x, nxt.x_dot, wrap_angle nxt.theta, nxt.theta_dot⟩

/-! The stateful `Controller` of `controller.py`, embedded as explicit state
passing: `Controller.call` returns the force together with the updated
controller state. -/

structure Controller where
  k_p : ℝ
  k_i : ℝ
  k_d : ℝ
  x_err_i : ℝ
  prev_t : ℝ

/-- Constructor `Controller.__init__`. -/
def Controller.init : Controller := ⟨5.0, 2.0, 3.0, 0.0, 0.0⟩

/-- Method `Controller.reset`. -/
def Controller.reset (c : Controller) : Controller :=
  { c with x_err_i := 0.0, prev_t := 0.0 }

/-- Method `Controller.__call__(state, t, ref_x, ref_theta)`; the mutation of
`prev_t` and `x_err_i` is returned as the second component. -/
def Controller.call (c : Controller) (state : SVec) (t ref_x ref_theta : ℝ) :
    ℝ × Controller :=
  let x := state.x
  let x_dot := state.x_dot
  let dt := t - c.prev_t
  let prev_t' := t
  let x_err := ref_x - x
  let x_err_i' := c.x_err_i + x_err * dt
  let u_p := c.k_p * x_err
  let u_i := c.k_i * x_err_i'
  let u_d := c.k_d * x_dot * (-1.0)
  let u := u_p + u_i + u_d
  (u, { c with x_err_i := x_err_i', prev_t := prev_t' })

/-! The `Metrics` tracker of `metrics.py`, embedded as explicit state
passing. -/

structure Metrics where
  max_abs_theta : ℝ
  max_abs_x_dev : ℝ
  energy_abs_impulse : ℝ
  settle_time : Option ℝ
  in_band_since : Option ℝ

/-- Method `Metrics.reset` (identical to the dataclass field defaults). -/
def Metrics.reset : Metrics := ⟨0.0, 0.0, 0.0, none, none⟩

/-- Method `Metrics.update(state, t, force, ref_x, ref_theta, dt)`. -/
def Metrics.update (m : Metrics) (state : SVec) (t force ref_x ref_theta dt : ℝ) :
    Metrics :=
  let theta_err := wrap_angle (state.theta - ref_theta)
  let x_err := state.x - ref_x
  let ma := max m.max_abs_theta |theta_err|
  let mx := max m.max_abs_x_dev |x_err|
  let e := m.energy_abs_impulse + |force| * dt
  let in_band := |x_err| ≤ P.settle_x_thresh ∧ |theta_err| ≤ P.settle_theta_thresh
  match m.settle_time with
  | some st => ⟨ma, mx, e, some st, m.in_band_since⟩
  | none =>
    if in_band then
      match m.in_band_since with
      | none => ⟨ma, mx, e, none, some t⟩
      | some t0 =>
        if t - t0 ≥ P.settle_hold_time then ⟨ma, mx, e, some t0, some t0⟩
        else ⟨ma, mx, e, none, some t0⟩
    else ⟨ma, mx, e, none, none⟩

/-! The orchestrator's per-sub-step constraint handling (`main.py`).  The
track bounds are computed exactly as in `main()`: window width 1600 px,
cart width `int(0.55 * 170)` px, 12 px margins. -/

def mainW : ℝ := 1600

/-- Pixel width `cart_w = int(P.cart_width_m * ppm)` (truncation of the positive float
`93.5`). -/
def cart_w : ℤ := ⌊P.cart_width_m * P.pixels_per_meter⌋

/-- Pixel bound `x_min_px = cart_w // 2 + 12`. -/
def x_min_px : ℤ := cart_w / 2 + 12

/-- Pixel bound `x_max_px = W - cart_w // 2 - 12`. -/
def x_max_px : ℤ := 1600 - cart_w / 2 - 12

def x_min_m : ℝ := ((x_min_px : ℝ) - mainW / 2) / P.pixels_per_meter

def x_max_m : ℝ := ((x_max_px : ℝ) - mainW / 2) / P.pixels_per_meter

/-- Predicate `constraint_flag(st, force_total)` in `main.main`. -/
def constraint_flag (st : SVec) (force_total : ℝ) : Prop :=
  (st.x ≤ x_min_m + 1e-6 ∧ force_total < 0) ∨
  (st.x ≥ x_max_m - 1e-6 ∧ force_total > 0)

instance (st : SVec) (force_total : ℝ) : Decidable (constraint_flag st force_total) := by
  unfold constraint_flag
  infer_instance

/-- The pre-integration clamp applied when the constraint flag is set:
snap `x` to a bound it is at or beyond, and zero `x_dot`. -/
def preClamp (st : SVec) : SVec :=
  let x1 := if st.x ≤ x_min_m then x_min_m else st.x
  let x2 := if x1 ≥ x_max_m then x_max_m else x1
  ⟨x2, 0, st.theta, st.theta_dot⟩

/-- The post-integration safety clamp (applied in every regime). -/
def postClamp (st : SVec) : SVec :=
  if st.x < x_min_m then
    ⟨x_min_m, if st.x_dot < 0 then 0 else st.x_dot, st.theta, st.theta_dot⟩
  else if st.x > x_max_m then
    ⟨x_max_m, if st.x_dot > 0 then 0 else st.x_dot, st.theta, st.theta_dot⟩
  else st

/-- One physics sub-step of the orchestrator loop in `main.main` (state
evolution only): constraint flag, pre-clamp when constrained, `rk4_step`
at the fixed step `P.dt`, post-clamp. -/
def substep (st : SVec) (f_total cart_damp pole_damp : ℝ) : SVec :=
  if constraint_flag st f_total then
    postClamp (rk4_step (preClamp st) f_total P.dt true cart_damp pole_damp)
  else
    postClamp (rk4_step st f_total P.dt false cart_damp pole_damp)

/-! Helper lemmas about `pymod` and `wrap_angle`. -/

theorem pymod_eq_fract (a b : ℝ) (hb : b ≠ 0) : pymod a b = b * Int.fract (a / b) := by
  unfold pymod Int.fract
  field_simp

theorem pymod_nonneg (a b : ℝ) (hb : 0 < b) : 0 ≤ pymod a b := by
  rw [pymod_eq_fract a b hb.ne']
  exact mul_nonneg hb.le (Int.fract_nonneg _)

theorem pymod_lt (a b : ℝ) (hb : 0 < b) : pymod a b < b := by
  rw [pymod_eq_fract a b hb.ne']
  calc b * Int.fract (a / b) < b * 1 := by
        exact mul_lt_mul_of_pos_left (Int.fract_lt_one _) hb
    _ = b := mul_one b

theorem pymod_add_int_mul (a b : ℝ) (k : ℤ) (hb : b ≠ 0) :
    pymod (a + b * k) b = pymod a b := by
  unfold pymod
  have h : (a + b * k) / b = a / b + k := by
    field_simp
    ring
  rw [h, Int.floor_add_int]
  push_cast
  ring

theorem twoPiPos : (0 : ℝ) < 2 * Real.pi := by positivity

theorem wrap_angle_mem (theta : ℝ) :
    -Real.pi ≤ wrap_angle theta ∧ wrap_angle theta < Real.pi := by
  unfold wrap_angle
  constructor
  · have h := pymod_nonneg (theta + Real.pi) (2 * Real.pi) twoPiPos
    linarith
  · have h := pymod_lt (theta + Real.pi) (2 * Real.pi) twoPiPos
    linarith

theorem wrap_angle_add_two_pi_int (theta : ℝ) (k : ℤ) :
    wrap_angle (theta + 2 * Real.pi * k) = wrap_angle theta := by
  unfold wrap_angle
  have h : theta + 2 * Real.pi * k + Real.pi = theta + Real.pi + 2 * Real.pi * k := by ring
  rw [h, pymod_add_int_mul _ _ _ twoPiPos.ne']

theorem wrap_angle_wrap_angle (theta : ℝ) :
    wrap_angle (wrap_angle theta) = wrap_angle theta := by
  have h0 := pymod_nonneg (theta + Real.pi) (2 * Real.pi) twoPiPos
  have h1 := pymod_lt (theta + Real.pi) (2 * Real.pi) twoPiPos
  have hfloor : ⌊(pymod (theta + Real.pi) (2 * Real.pi) - Real.pi + Real.pi) / (2 * Real.pi)⌋ = 0 := by
    rw [Int.floor_eq_zero_iff]
    constructor
    · apply div_nonneg _ twoPiPos.le
      linarith
    · rw [div_lt_one twoPiPos]
      linarith
  unfold wrap_angle
  conv_lhs => rw [pymod]
  rw [hfloor]
  push_cast
  ring

theorem wrap_angle_pi : wrap_angle Real.pi = -Real.pi := by
  unfold wrap_angle pymod
  have h : (Real.pi + Real.pi) / (2 * Real.pi) = 1 := by
    rw [div_eq_one_iff_eq twoPiPos.ne']
    ring
  rw [h]
  norm_num
  ring

/-- C2 (corrected range): for every `theta` and integer `k`,
`wrap(wrap(theta) + 2*pi*k) = wrap(theta)` exactly, and `wrap(theta)` lies
in the half-open interval `[-pi, pi)` — closed at `-pi`, open at `pi`. -/
theorem wrap_angle_idempotent_and_range (theta : ℝ) (k : ℤ) :
    wrap_angle (wrap_angle theta + 2 * Real.pi * k) = wrap_angle theta ∧
    -Real.pi ≤ wrap_angle theta ∧ wrap_angle theta < Real.pi := by
  refine ⟨?_, wrap_angle_mem theta⟩
  rw [wrap_angle_add_two_pi_int, wrap_angle_wrap_angle]

/-- C2 counterexample: the claimed interval `(-pi, pi]` is wrong at
`theta = pi`: `wrap(pi) = -pi`, which is not `> -pi`. -/
theorem wrap_angle_range_counterexample :
    wrap_angle Real.pi = -Real.pi ∧
    ¬(-Real.pi < wrap_angle Real.pi ∧ wrap_angle Real.pi ≤ Real.pi) := by
  refine ⟨wrap_angle_pi, ?_⟩
  rw [wrap_angle_pi]
  simp

/-! Claim C1: the free-dynamics formulas.  The claim asserts that the
`theta_dd` used inside the `x_dd` formula is the *damped* one; in the source
`x_dd` is computed before the damping term is added. -/

/-- The free dynamics exactly as claim C1 words it: `x_dd` built from the
`theta_dd` that already includes the damping term. -/
def dynamics_free_claimed (state : SVec) (force cart_damp pole_damp : ℝ) : SVec :=
  let force_eff := force - cart_damp * state.x_dot
  let damping_term := -pole_damp * state.theta_dot / (P.m * P.l ^ 2 + 1e-9)
  let temp := (force_eff + P.m * P.l * state.theta_dot ^ 2 * Real.sin state.theta) / (P.M + P.m)
  let denom := P.l * (4.0 / 3.0 - P.m * Real.cos state.theta ^ 2 / (P.M + P.m))
  let theta_dd := (P.g * Real.sin state.theta - Real.cos state.theta * temp) / (denom + 1e-9) + damping_term
  let x_dd := temp - P.m * P.l * theta_dd * Real.cos state.theta / (P.M + P.m)
  ⟨state.x_dot, x_dd, state.theta_dot, theta_dd⟩

/-- The free dynamics as the source computes it, written in the claim's
flattened style: identical to `dynamics_free_claimed` except that the
`theta_dd` appearing in the `x_dd` formula is the *undamped* one. -/
def dynamics_free_amended (state : SVec) (force cart_damp pole_damp : ℝ) : SVec :=
  let force_eff := force - cart_damp * state.x_dot
  let damping_term := -pole_damp * state.theta_dot / (P.m * P.l ^ 2 + 1e-9)
  let temp := (force_eff + P.m * P.l * state.theta_dot ^ 2 * Real.sin state.theta) / (P.M + P.m)
  let denom := P.l * (4.0 / 3.0 - P.m * Real.cos state.theta ^ 2 / (P.M + P.m))
  let theta_dd_undamped := (P.g * Real.sin state.theta - Real.cos state.theta * temp) / (denom + 1e-9)
  let x_dd := temp - P.m * P.l * theta_dd_undamped * Real.cos state.theta / (P.M + P.m)
  ⟨state.x_dot, x_dd, state.theta_dot, theta_dd_undamped + damping_term⟩

/-- C1 counterexample: at state `(0, 0, 0, 1)` with `force = 0`,
`cart_damp = 0`, `pole_damp = 1`, the source's `x_dd` is `0` while the
claim's formula (damped `theta_dd` inside `x_dd`) gives a nonzero value. -/
theorem dynamics_free_claim_counterexample :
    dynamics_free ⟨0, 0, 0, 1⟩ 0 0 1 ≠ dynamics_free_claimed ⟨0, 0, 0, 1⟩ 0 0 1 := by
  intro h
  have h2 := congrArg SVec.x_dot h
  simp only [dynamics_free, dynamics_free_claimed] at h2
  rw [Real.sin_zero, Real.cos_zero] at h2
  norm_num [P.m, P.l, P.M, P.g] at h2

/-- C1 (amended): `dynamics_free` returns
`(x_dot, x_dd, theta_dot, theta_dd)` with
`theta_dd = (g*s - c*temp)/(denom+eps) + damping_term` and
`x_dd = temp - m*l*theta_dd_undamped*c/(M+m)` where `theta_dd_undamped`
excludes the damping term (the source computes `x_dd` before adding it). -/
theorem dynamics_free_eq_amended (state : SVec) (force cart_damp pole_damp : ℝ) :
    dynamics_free state force cart_damp pole_damp =
    dynamics_free_amended state force cart_damp pole_damp := rfl

/-! Claim C3: the integrator is the classic 4-stage explicit Runge-Kutta
combination, shared between the two regimes, with the resulting `theta`
wrapped. -/

/-- The 4-stage explicit Runge-Kutta update exactly as the spec words it,
generic in the derivative function `f`: evaluations at `state`,
`state + dt/2*k1`, `state + dt/2*k2`, `state + dt*k3`, combined as
`state + dt/6*(k1 + 2*k2 + 2*k3 + k4)`, with the `theta` component of the
result wrapped to the principal range. -/
def rk4_spec (f : SVec → SVec) (state : SVec) (dt : ℝ) : SVec :=
  let k1 := f state
  let k2 := f (state + (dt / 2) • k1)
  let k3 := f (state + (dt / 2) • k2)
  let k4 := f (state + dt • k3)
  let nxt := state + (dt / 6) • (k1 + (2 : ℝ) • k2 + (2 : ℝ) • k3 + k4)
  ⟨nxt.x, nxt.x_dot, wrap_angle nxt.theta, nxt.theta_dot⟩

/-- C3: `rk4_step` is the generic RK4 combination applied to whichever
derivative function the `constrained` flag selects — the same combination
code serves both regimes, only the derivative function differs, and the
returned `theta` is wrapped. -/
theorem rk4_step_is_rk4_spec (state : SVec) (force dt : ℝ) (constrained : Bool)
    (cart_damp pole_damp : ℝ) :
    rk4_step state force dt constrained cart_damp pole_damp =
    rk4_spec
      (if constrained then fun st => dynamics_constrained st pole_damp
       else fun st => dynamics_free st force cart_damp pole_damp)
      state dt := by
  have h2 : (0.5 : ℝ) * dt = dt / 2 := by ring
  have h6 : dt / (6.0 : ℝ) = dt / 6 := by norm_num
  cases constrained <;>
    simp only [rk4_step, rk4_spec, h2, h6, if_true, if_false, Bool.false_eq_true]

/-! Claims C10 and C4 both rest on the fact that in the constrained regime
the cart components of the derivative are identically zero, so one RK4 step
leaves `x` and `x_dot` unchanged. -/

theorem rk4_constrained_cart_fixed (state : SVec) (force dt cart_damp pole_damp : ℝ) :
    (rk4_step state force dt true cart_damp pole_damp).x = state.x ∧
    (rk4_step state force dt true cart_damp pole_damp).x_dot = state.x_dot := by
  simp only [rk4_step, if_true, dynamics_constrained, SVec.add_def, SVec.smul_def]
  constructor <;> ring

/-- C10: `rk4_step` in the constrained regime returns the input `x` and
`x_dot` exactly — only `theta` and `theta_dot` can change (the cart's
position derivative and acceleration are identically zero there). -/
theorem rk4_step_constrained_frame (state : SVec) (force dt cart_damp pole_damp : ℝ) :
    (rk4_step state force dt true cart_damp pole_damp).x = state.x ∧
    (rk4_step state force dt true cart_damp pole_damp).x_dot = state.x_dot :=
  rk4_constrained_cart_fixed state force dt cart_damp pole_damp

/-! Claims C5, C8, C9: the controller. -/

/-- C5: one controller call computes `dt = t - prev_t`, stores `prev_t = t`,
accumulates `integral += (ref_x - x) * dt`, and returns the unsaturated
`u = k_p*x_err + k_i*integral - k_d*x_dot` using the updated integral; no
clamping is applied inside the controller. -/
theorem controller_call_formula (c : Controller) (state : SVec) (t ref_x ref_theta : ℝ) :
    Controller.call c state t ref_x ref_theta =
      (c.k_p * (ref_x - state.x)
        + c.k_i * (c.x_err_i + (ref_x - state.x) * (t - c.prev_t))
        - c.k_d * state.x_dot,
       { c with x_err_i := c.x_err_i + (ref_x - state.x) * (t - c.prev_t), prev_t := t }) := by
  simp only [Controller.call, Prod.mk.injEq]
  exact ⟨by ring, trivial⟩

/-- A freshly constructed controller whose gains have been set to the given
values (gains are directly settable fields). -/
def freshWith (kp ki kd : ℝ) : Controller :=
  { Controller.init with k_p := kp, k_i := ki, k_d := kd }

/-- C8: after `reset`, a call returns exactly the same force (and successor
internal state) as the first call of a freshly constructed controller with
the same gains, on the same arguments — no residual integral, no stale
`prev_t`. -/
theorem controller_reset_eq_fresh (c : Controller) (state : SVec) (t ref_x ref_theta : ℝ) :
    Controller.call (Controller.reset c) state t ref_x ref_theta =
    Controller.call (freshWith c.k_p c.k_i c.k_d) state t ref_x ref_theta := rfl

/-- C9: the controller's output force and successor state depend only on
`x`, `x_dot`, `t` and `ref_x`; two calls agreeing on those but differing
arbitrarily in `theta`, `theta_dot` and `ref_theta` coincide. -/
theorem controller_ignores_angle (c : Controller) (s1 s2 : SVec) (t ref_x r1 r2 : ℝ)
    (hx : s1.x = s2.x) (hxd : s1.x_dot = s2.x_dot) :
    Controller.call c s1 t ref_x r1 = Controller.call c s2 t ref_x r2 := by
  simp only [Controller.call, hx, hxd]

/-- Witness for C9 at a concrete input: states agreeing on the cart
components but with different angles, and different angle references. -/
theorem controller_ignores_angle_witness :
    (SVec.mk 0 0 1 2).x = (SVec.mk 0 0 3 4).x ∧
    (SVec.mk 0 0 1 2).x_dot = (SVec.mk 0 0 3 4).x_dot ∧
    Controller.call Controller.init ⟨0, 0, 1, 2⟩ 1 0 5 =
      Controller.call Controller.init ⟨0, 0, 3, 4⟩ 1 0 6 :=
  ⟨rfl, rfl, controller_ignores_angle Controller.init ⟨0, 0, 1, 2⟩ ⟨0, 0, 3, 4⟩ 1 0 5 6 rfl rfl⟩

/-! Claims C6 and C7: the metrics tracker. -/

theorem wrap_angle_zero : wrap_angle 0 = 0 := by
  unfold wrap_angle pymod
  have h : (0 + Real.pi) / (2 * Real.pi) = 1 / 2 := by
    rw [zero_add, div_eq_div_iff twoPiPos.ne' two_ne_zero]
    ring
  rw [h]
  norm_num

/-- All branches of `Metrics.update` set the running fields the same way. -/
theorem Metrics.update_running_fields (m : Metrics) (state : SVec)
    (t force ref_x ref_theta dt : ℝ) :
    (m.update state t force ref_x ref_theta dt).max_abs_theta
      = max m.max_abs_theta |wrap_angle (state.theta - ref_theta)| ∧
    (m.update state t force ref_x ref_theta dt).max_abs_x_dev
      = max m.max_abs_x_dev |state.x - ref_x| ∧
    (m.update state t force ref_x ref_theta dt).energy_abs_impulse
      = m.energy_abs_impulse + |force| * dt := by
  rcases m with ⟨a, b, e, st, ib⟩
  cases st <;> cases ib <;> simp only [Metrics.update] <;>
    first
    | (split_ifs <;> exact ⟨by trivial, by trivial, by trivial⟩)
    | exact ⟨by trivial, by trivial, by trivial⟩

/-- Argument tuple for one `Metrics.update` call. -/
structure UpdateArgs where
  state : SVec
  t : ℝ
  force : ℝ
  ref_x : ℝ
  ref_theta : ℝ
  dt : ℝ

/-- A sequence of `Metrics.update` calls. -/
def applyUpdates (m : Metrics) (l : List UpdateArgs) : Metrics :=
  l.foldl (fun acc a => acc.update a.state a.t a.force a.ref_x a.ref_theta a.dt) m

theorem applyUpdates_impulse (l : List UpdateArgs) :
    ∀ m : Metrics, (applyUpdates m l).energy_abs_impulse
      = m.energy_abs_impulse + (l.map fun a => |a.force| * a.dt).sum := by
  induction l with
  | nil => intro m; simp [applyUpdates]
  | cons a l ih =>
    intro m
    have h := (Metrics.update_running_fields m a.state a.t a.force a.ref_x a.ref_theta a.dt).2.2
    simp only [applyUpdates, List.foldl_cons, List.map_cons, List.sum_cons]
    rw [show List.foldl (fun acc b => Metrics.update acc b.state b.t b.force b.ref_x b.ref_theta b.dt) (m.update a.state a.t a.force a.ref_x a.ref_theta a.dt) l = applyUpdates (m.update a.state a.t a.force a.ref_x a.ref_theta a.dt) l from rfl]
    rw [ih, h]
    ring

/-- C7 (amended): the two running maxima never decrease across an update;
`energy_abs_impulse` after any update sequence from `reset` equals the
discrete sum of `|force_i| * dt_i`; and `energy_abs_impulse` never
decreases across an update whose `dt` is nonnegative. -/
theorem metrics_monotone_and_impulse_sum :
    (∀ (m : Metrics) (state : SVec) (t force ref_x ref_theta dt : ℝ),
      m.max_abs_theta ≤ (m.update state t force ref_x ref_theta dt).max_abs_theta ∧
      m.max_abs_x_dev ≤ (m.update state t force ref_x ref_theta dt).max_abs_x_dev ∧
      (0 ≤ dt →
        m.energy_abs_impulse ≤ (m.update state t force ref_x ref_theta dt).energy_abs_impulse)) ∧
    (∀ l : List UpdateArgs,
      (applyUpdates Metrics.reset l).energy_abs_impulse
        = (l.map fun a => |a.force| * a.dt).sum) := by
  constructor
  · intro m state t force ref_x ref_theta dt
    obtain ⟨h1, h2, h3⟩ := Metrics.update_running_fields m state t force ref_x ref_theta dt
    refine ⟨h1 ▸ le_max_left _ _, h2 ▸ le_max_left _ _, fun hdt => ?_⟩
    rw [h3]
    have : 0 ≤ |force| * dt := mul_nonneg (abs_nonneg _) hdt
    linarith
  · intro l
    rw [applyUpdates_impulse l Metrics.reset]
    norm_num [Metrics.reset]

/-- Witness for C7 at a concrete input with nonnegative `dt`. -/
theorem metrics_monotone_witness :
    (0 : ℝ) ≤ 1 ∧
    Metrics.reset.energy_abs_impulse ≤
      (Metrics.reset.update ⟨0, 0, 0, 0⟩ 0 1 0 0 1).energy_abs_impulse :=
  ⟨zero_le_one,
    (metrics_monotone_and_impulse_sum.1 Metrics.reset ⟨0, 0, 0, 0⟩ 0 1 0 0 1).2.2 zero_le_one⟩

/-- C7 counterexample: as stated the claim quantifies over arbitrary update
calls, and a call with negative `dt` strictly decreases
`energy_abs_impulse`. -/
theorem metrics_impulse_not_monotone :
    (Metrics.reset.update ⟨0, 0, 0, 0⟩ 0 1 0 0 (-1)).energy_abs_impulse
      < Metrics.reset.energy_abs_impulse := by
  have h := (Metrics.update_running_fields Metrics.reset ⟨0, 0, 0, 0⟩ 0 1 0 0 (-1)).2.2
  rw [h]
  norm_num [Metrics.reset]

/-! Branch characterizations of `Metrics.update` while not yet settled. -/

theorem Metrics.update_inband_no_marker (a b e : ℝ) (state : SVec) (t force rx rth dt : ℝ)
    (h : |state.x - rx| ≤ P.settle_x_thresh ∧
         |wrap_angle (state.theta - rth)| ≤ P.settle_theta_thresh) :
    Metrics.update ⟨a, b, e, none, none⟩ state t force rx rth dt =
      ⟨max a |wrap_angle (state.theta - rth)|, max b |state.x - rx|,
        e + |force| * dt, none, some t⟩ := by
  simp only [Metrics.update]
  rw [if_pos h]

theorem Metrics.update_inband_marker_short (a b e t0 : ℝ) (state : SVec)
    (t force rx rth dt : ℝ)
    (h : |state.x - rx| ≤ P.settle_x_thresh ∧
         |wrap_angle (state.theta - rth)| ≤ P.settle_theta_thresh)
    (hshort : ¬ t - t0 ≥ P.settle_hold_time) :
    Metrics.update ⟨a, b, e, none, some t0⟩ state t force rx rth dt =
      ⟨max a |wrap_angle (state.theta - rth)|, max b |state.x - rx|,
        e + |force| * dt, none, some t0⟩ := by
  simp only [Metrics.update]
  rw [if_pos h, if_neg hshort]

theorem Metrics.update_inband_marker_held (a b e t0 : ℝ) (state : SVec)
    (t force rx rth dt : ℝ)
    (h : |state.x - rx| ≤ P.settle_x_thresh ∧
         |wrap_angle (state.theta - rth)| ≤ P.settle_theta_thresh)
    (hheld : t - t0 ≥ P.settle_hold_time) :
    Metrics.update ⟨a, b, e, none, some t0⟩ state t force rx rth dt =
      ⟨max a |wrap_angle (state.theta - rth)|, max b |state.x - rx|,
        e + |force| * dt, some t0, some t0⟩ := by
  simp only [Metrics.update]
  rw [if_pos h, if_pos hheld]

theorem Metrics.update_outband (a b e : ℝ) (ib : Option ℝ) (state : SVec)
    (t force rx rth dt : ℝ)
    (h : ¬(|state.x - rx| ≤ P.settle_x_thresh ∧
           |wrap_angle (state.theta - rth)| ≤ P.settle_theta_thresh)) :
    Metrics.update ⟨a, b, e, none, ib⟩ state t force rx rth dt =
      ⟨max a |wrap_angle (state.theta - rth)|, max b |state.x - rx|,
        e + |force| * dt, none, none⟩ := by
  simp only [Metrics.update]
  rw [if_neg h]

/-- The in-band condition holds when both errors vanish. -/
theorem band_holds_at_zero :
    |(0 : ℝ) - 0| ≤ P.settle_x_thresh ∧
    |wrap_angle ((0 : ℝ) - 0)| ≤ P.settle_theta_thresh := by
  constructor
  · rw [sub_zero, abs_zero]
    norm_num [P.settle_x_thresh]
  · rw [sub_zero, wrap_angle_zero, abs_zero]
    unfold P.settle_theta_thresh
    positivity

/-- The in-band condition fails at a position error of one metre. -/
theorem band_fails_at_one :
    ¬(|(1 : ℝ) - 0| ≤ P.settle_x_thresh ∧
      |wrap_angle ((0 : ℝ) - 0)| ≤ P.settle_theta_thresh) := by
  intro h
  have hx := h.1
  rw [sub_zero] at hx
  norm_num [P.settle_x_thresh] at hx

/-- C6: with hold requirement `1.0 s`, a trajectory that is in the settle
band from `t = 5.0`, leaves after holding only `0.6 s`, re-enters at
`t = 7.0` and stays in band through `t = 8.0`, ends with
`settle_time = 7.0` (the start of the successful continuous run), and any
out-of-band update while not yet settled clears the band-entry marker. -/
theorem metrics_settling_hysteresis :
    ((((((Metrics.reset.update ⟨0, 0, 0, 0⟩ 5 0 0 0 0).update
        ⟨0, 0, 0, 0⟩ 5.6 0 0 0 0).update
        ⟨1, 0, 0, 0⟩ 6 0 0 0 0).update
        ⟨0, 0, 0, 0⟩ 7 0 0 0 0).update
        ⟨0, 0, 0, 0⟩ 7.5 0 0 0 0).update
        ⟨0, 0, 0, 0⟩ 8 0 0 0 0).settle_time = some 7 ∧
    (∀ (m : Metrics) (state : SVec) (t force rx rth dt : ℝ),
      m.settle_time = none →
      ¬(|state.x - rx| ≤ P.settle_x_thresh ∧
        |wrap_angle (state.theta - rth)| ≤ P.settle_theta_thresh) →
      (m.update state t force rx rth dt).in_band_since = none) := by
  constructor
  · have hz : (|wrap_angle ((0 : ℝ) - 0)| : ℝ) = 0 := by
      rw [sub_zero, wrap_angle_zero, abs_zero]
    have s1 : Metrics.update Metrics.reset ⟨0, 0, 0, 0⟩ 5 0 0 0 0
        = ⟨0, 0, 0, none, some 5⟩ := by
      rw [show Metrics.reset = (⟨0, 0, 0, none, none⟩ : Metrics) by norm_num [Metrics.reset]]
      rw [Metrics.update_inband_no_marker 0 0 0 ⟨0, 0, 0, 0⟩ 5 0 0 0 0 band_holds_at_zero]
      rw [hz]
      norm_num
    have s2 : Metrics.update ⟨0, 0, 0, none, some 5⟩ ⟨0, 0, 0, 0⟩ 5.6 0 0 0 0
        = ⟨0, 0, 0, none, some 5⟩ := by
      rw [Metrics.update_inband_marker_short 0 0 0 5 ⟨0, 0, 0, 0⟩ 5.6 0 0 0 0
        band_holds_at_zero (by norm_num [P.settle_hold_time])]
      rw [hz]
      norm_num
    have s3 : Metrics.update ⟨0, 0, 0, none, some 5⟩ ⟨1, 0, 0, 0⟩ 6 0 0 0 0
        = ⟨0, 1, 0, none, none⟩ := by
      rw [Metrics.update_outband 0 0 0 (some 5) ⟨1, 0, 0, 0⟩ 6 0 0 0 0 band_fails_at_one]
      rw [hz]
      norm_num
    have s4 : Metrics.update ⟨0, 1, 0, none, none⟩ ⟨0, 0, 0, 0⟩ 7 0 0 0 0
        = ⟨0, 1, 0, none, some 7⟩ := by
      rw [Metrics.update_inband_no_marker 0 1 0 ⟨0, 0, 0, 0⟩ 7 0 0 0 0 band_holds_at_zero]
      rw [hz]
      norm_num
    have s5 : Metrics.update ⟨0, 1, 0, none, some 7⟩ ⟨0, 0, 0, 0⟩ 7.5 0 0 0 0
        = ⟨0, 1, 0, none, some 7⟩ := by
      rw [Metrics.update_inband_marker_short 0 1 0 7 ⟨0, 0, 0, 0⟩ 7.5 0 0 0 0
        band_holds_at_zero (by norm_num [P.settle_hold_time])]
      rw [hz]
      norm_num
    have s6 : Metrics.update ⟨0, 1, 0, none, some 7⟩ ⟨0, 0, 0, 0⟩ 8 0 0 0 0
        = ⟨0, 1, 0, some 7, some 7⟩ := by
      rw [Metrics.update_inband_marker_held 0 1 0 7 ⟨0, 0, 0, 0⟩ 8 0 0 0 0
        band_holds_at_zero (by norm_num [P.settle_hold_time])]
      rw [hz]
      norm_num
    rw [s1, s2, s3, s4, s5, s6]
  · intro m state t force rx rth dt hnone hout
    rcases m with ⟨a, b, e, st, ib⟩
    cases st with
    | none => rw [Metrics.update_outband a b e ib state t force rx rth dt hout]
    | some s => exact absurd hnone (by simp)

/-- Witness for C6's marker-clearing clause at a concrete out-of-band
input. -/
theorem metrics_settling_hysteresis_witness :
    Metrics.reset.settle_time = none ∧
    (Metrics.reset.update ⟨1, 0, 0, 0⟩ 6 0 0 0 0).in_band_since = none :=
  ⟨rfl, metrics_settling_hysteresis.2 Metrics.reset ⟨1, 0, 0, 0⟩ 6 0 0 0 0 rfl
    band_fails_at_one⟩

/-! Claim C4: constraint handling at the upper bound.  First the concrete
values of the track bounds. -/

theorem cart_w_eq : cart_w = 93 := by
  unfold cart_w P.cart_width_m P.pixels_per_meter
  rw [Int.floor_eq_iff]
  norm_num

theorem x_min_px_eq : x_min_px = 58 := by
  rw [x_min_px, cart_w_eq]
  decide

theorem x_max_px_eq : x_max_px = 1542 := by
  rw [x_max_px, cart_w_eq]
  decide

theorem x_min_m_eq : x_min_m = -742 / 170 := by
  rw [x_min_m, x_min_px_eq, mainW, P.pixels_per_meter]
  norm_num

theorem x_max_m_eq : x_max_m = 742 / 170 := by
  rw [x_max_m, x_max_px_eq, mainW, P.pixels_per_meter]
  norm_num

theorem x_min_lt_x_max : x_min_m < x_max_m := by
  rw [x_min_m_eq, x_max_m_eq]
  norm_num

/-- C4 (amended): when the cart is at or beyond the upper bound
(`x_max <= x`) and the total force pushes into it (`0 < f`), one
orchestrator sub-step — pre-clamp, constrained `rk4_step`, post-clamp —
returns `x = x_max` exactly and `x_dot = 0`, for every `theta`,
`theta_dot` and damping. -/
theorem substep_constrained_upper (st : SVec) (f cart_damp pole_damp : ℝ)
    (hf : 0 < f) (hx : x_max_m ≤ st.x) :
    (substep st f cart_damp pole_damp).x = x_max_m ∧
    (substep st f cart_damp pole_damp).x_dot = 0 := by
  have heps : x_max_m - 1e-6 ≤ x_max_m := by norm_num
  have hflag : constraint_flag st f := Or.inr ⟨le_trans heps hx, hf⟩
  have hnotmin : ¬ st.x ≤ x_min_m :=
    not_le.mpr (lt_of_lt_of_le x_min_lt_x_max hx)
  have hpre : preClamp st = ⟨x_max_m, 0, st.theta, st.theta_dot⟩ := by
    simp only [preClamp]
    rw [if_neg hnotmin, if_pos hx]
  have hc := rk4_constrained_cart_fixed (preClamp st) f P.dt cart_damp pole_damp
  have hRx : (rk4_step (preClamp st) f P.dt true cart_damp pole_damp).x = x_max_m := by
    rw [hc.1, hpre]
  have hRxd : (rk4_step (preClamp st) f P.dt true cart_damp pole_damp).x_dot = 0 := by
    rw [hc.2, hpre]
  unfold substep
  rw [if_pos hflag]
  unfold postClamp
  rw [if_neg (by rw [hRx]; exact not_lt.mpr x_min_lt_x_max.le),
    if_neg (by rw [hRx]; exact lt_irrefl x_max_m)]
  exact ⟨hRx, hRxd⟩

/-- Witness for C4's amended theorem at the concrete state sitting exactly
at the upper bound. -/
theorem substep_constrained_upper_witness :
    (0 : ℝ) < 1 ∧ x_max_m ≤ x_max_m ∧
    ((substep ⟨x_max_m, 0, 0, 0⟩ 1 0 0).x = x_max_m ∧
     (substep ⟨x_max_m, 0, 0, 0⟩ 1 0 0).x_dot = 0) :=
  ⟨one_pos, le_rfl, substep_constrained_upper ⟨x_max_m, 0, 0, 0⟩ 1 0 0 one_pos le_rfl⟩

/-- C4 counterexample: a state inside the contact tolerance but strictly
below the bound (`x = x_max - 1e-7`) satisfies the claim's contact
condition `x >= x_max - 1e-6` with inbound force `1 > 0`, yet after one
sub-step `x` is still `x_max - 1e-7`, not `x_max`: the pre-clamp only
snaps `x` when `x >= x_max` already holds. -/
theorem substep_claim_counterexample :
    (SVec.mk (x_max_m - 1e-7) 0 0 0).x ≥ x_max_m - 1e-6 ∧ (0 : ℝ) < 1 ∧
    (substep ⟨x_max_m - 1e-7, 0, 0, 0⟩ 1 0 0).x ≠ x_max_m := by
  refine ⟨by rw [x_max_m_eq]; norm_num, one_pos, ?_⟩
  have hflag : constraint_flag ⟨x_max_m - 1e-7, 0, 0, 0⟩ 1 :=
    Or.inr ⟨by rw [x_max_m_eq]; norm_num, one_pos⟩
  have hnotmin : ¬ (SVec.mk (x_max_m - 1e-7) 0 0 0).x ≤ x_min_m := by
    rw [x_min_m_eq, x_max_m_eq]
    norm_num
  have hnotmax : ¬ (SVec.mk (x_max_m - 1e-7) 0 0 0).x ≥ x_max_m := by
    rw [x_max_m_eq]
    norm_num
  have hpre : preClamp ⟨x_max_m - 1e-7, 0, 0, 0⟩ = ⟨x_max_m - 1e-7, 0, 0, 0⟩ := by
    simp only [preClamp]
    rw [if_neg hnotmin, if_neg hnotmax]
  have hc := rk4_constrained_cart_fixed (preClamp ⟨x_max_m - 1e-7, 0, 0, 0⟩) 1 P.dt 0 0
  have hRx : (rk4_step (preClamp ⟨x_max_m - 1e-7, 0, 0, 0⟩) 1 P.dt true 0 0).x
      = x_max_m - 1e-7 := by
    rw [hc.1, hpre]
  unfold substep
  rw [if_pos hflag]
  unfold postClamp
  rw [if_neg (by rw [hRx, x_min_m_eq, x_max_m_eq]; norm_num),
    if_neg (by rw [hRx]; norm_num)]
  rw [hRx, x_max_m_eq]
  norm_num
